import Mathlib

/-
Verification of patentdata/models/specification.py: the PatentDoc /
Description / Paragraph / Sentence hierarchy and the printable-character
codec.  Pure functions are embedded as Lean functions; the lazy sentence
cache of Paragraph (a try/except AttributeError memo in Python) is embedded
by explicit state passing, with an extra counter recording how many times
the external sentence-splitting service was invoked.  External collaborators
(the nltk tokenizer services and the claim-set object) are parameters,
specified only at their interface boundary, exactly as the repository treats
them.  Python exceptions (AttributeError on a missing description, KeyError
on an invalid decode) are embedded as Option results, none meaning the
operation raises.
-/

namespace Patentdata

/-- Alphabet string.printable[:-2] of CPython: digits, lowercase, uppercase,
punctuation, then the whitespace " \t\n\r" (string.printable ends with
"\x0b\x0c", which [:-2] drops).  98 characters, the space at index 94. -/
def printable98 : List Char :=
  "0123456789abcdefghijklmnopqrstuvwxyzABCDEFGHIJKLMNOPQRSTUVWXYZ!\"#$%&\x27()*+,-./:;<=>?@[\\]^_`\x7b|\x7d~ \t\n\r".toList

/-- Encoding of one character, from PatentDoc.string2printint: the dict
comprehension char_map maps each alphabet character to its index, and a
character missing from char_map is encoded as char_map[" "]. -/
def encodeChar (c : Char) : Int :=
  if c ∈ printable98 then (printable98.indexOf c : Int)
  else (printable98.indexOf ' ' : Int)

/-- Decoding of one integer code, from PatentDoc.printint2string: char_map
holds exactly the keys 0..97, and looking up any other integer raises
KeyError, embedded as none. -/
def decodeChar (i : Int) : Option Char :=
  if h : 0 ≤ i ∧ i.toNat < printable98.length then
    some (printable98.get ⟨i.toNat, h.2⟩)
  else none

/-- Decoding of a code list, from the list comprehension in
printint2string: each element is looked up in turn and the first invalid
code aborts the whole comprehension with KeyError (none). -/
def decodeCodes : List Int → Option (List Char)
  | [] => some []
  | i :: rest =>
    match decodeChar i, decodeCodes rest with
    | some c, some cs => some (c :: cs)
    | _, _ => none

/-- Interface of the external nltk services (word_tokenize, sent_tokenize)
and of the stopword/stemming services used by bag_of_words; the repository
treats all of them as black boxes. -/
structure NLPServices where
  word_tokenize : String → List String
  sent_tokenize : String → List String
  is_stopword : String → Bool
  stem : String → String

/-- Sentence of a patent description: a BaseTextBlock leaf, only text. -/
structure Sentence where
  text : String
deriving DecidableEq

/-- Paragraph of a patent description.  sentencesCache models the
_sentences attribute: absent (none) until the sentences property is first
accessed, then set once. -/
structure Paragraph where
  text : String
  sentencesCache : Option (List Sentence)
deriving DecidableEq

/-- Construction of a Paragraph from raw text: the _sentences attribute
does not exist yet. -/
def Paragraph.ofText (t : String) : Paragraph :=
  ⟨t, none⟩

/-- Property Paragraph.sentences: return the cached _sentences if present,
otherwise segment the text with sent_tokenize, wrap each result as a
Sentence and cache the list.  Returns the sentence list, the updated
paragraph state, and how many times the splitting service was invoked by
this access. -/
def Paragraph.sentences (svc : NLPServices) (p : Paragraph) :
    List Sentence × Paragraph × Nat :=
  match p.sentencesCache with
  | some ss => (ss, p, 0)
  | none =>
    let ss := (svc.sent_tokenize p.text).map Sentence.mk
    (ss, ⟨p.text, some ss⟩, 1)

/-- Modelled from the spec: Paragraph.sentence_segment is inherited from
patentdata.models.basemodels.BaseTextBlock, which is not under src; the
spec describes Description.sentence_segment as an explicit warm-up of the
lazy sentence cache of every paragraph, so the per-paragraph step forces
the sentences property and keeps the updated state. -/
def Paragraph.sentence_segment (svc : NLPServices) (p : Paragraph) : Paragraph :=
  ((p.sentences svc).2).1

/-- Property Paragraph.sentence_count: len(self.sentences). -/
def Paragraph.sentence_count (svc : NLPServices) (p : Paragraph) : Nat :=
  ((p.sentences svc).1).length

/-- External claim-set collaborator, specified at its interface boundary:
text, claim_count, the two counters, and bag_of_words under the three
cleaning options.  Counters are multisets of tokens/characters, i.e.
Python Counter objects up to their count maps. -/
structure ClaimSet where
  text : String
  claim_count : Nat
  unfiltered_counter : Multiset String
  character_counter : Multiset Char
  bag_of_words : Bool → Bool → Bool → List String

/-- Description of a patent: a BaseTextSet whose units are Paragraph
objects, in insertion order. -/
structure Description where
  units : List Paragraph
deriving DecidableEq

/-- Constructor of Description for a list of strings: check_list passes a
list through unchanged and each non-Paragraph entry is wrapped as a new
Paragraph (specification.py lines 143-163). -/
def Description.ofStrings (ss : List String) : Description :=
  ⟨ss.map Paragraph.ofText⟩

/-- Modelled from the spec: BaseTextSet.text is not under src; the spec
says a composite aggregates its members, so the text of a Description is
the member texts joined in order (the separator is not fixed by the spec
and no claim below depends on it). -/
def Description.text (d : Description) : String :=
  String.intercalate "\n" (d.units.map Paragraph.text)

/-- Modelled from the spec: BaseTextSet.unfiltered_counter is not under
src; the spec defines it as the element-wise sum over members of the
member counter, a member (TextBlock) counter being the count map of the
tokenizer output on its text. -/
def Description.unfiltered_counter (svc : NLPServices) (d : Description) :
    Multiset String :=
  (d.units.map (fun p => Multiset.ofList (svc.word_tokenize p.text))).sum

/-- Modelled from the spec: BaseTextSet.character_counter is not under
src; element-wise sum over members of the count map of the characters of
the member text. -/
def Description.character_counter (d : Description) : Multiset Char :=
  (d.units.map (fun p => Multiset.ofList p.text.toList)).sum

/-- Alphabetic-word test used by the clean_non_words option, from the
spec: tokens that are not alphabetic words (punctuation or digits-only
tokens) are dropped. -/
def isAlphaWord (w : String) : Bool :=
  !w.isEmpty && w.toList.all Char.isAlpha

/-- Modelled from the spec: BaseTextBlock.bag_of_words is not under src;
the spec pipeline is tokenization, then optional removal of non-alphabetic
tokens, optional removal of stopwords, optional stemming, in that order,
duplicates retained. -/
def blockBagOfWords (svc : NLPServices) (cnw csw stw : Bool) (t : String) :
    List String :=
  let toks := svc.word_tokenize t
  let t1 := if cnw then toks.filter isAlphaWord else toks
  let t2 := if csw then t1.filter (fun w => !svc.is_stopword w) else t1
  if stw then t2.map svc.stem else t2

/-- Modelled from the spec: BaseTextSet.bag_of_words is not under src; the
spec defines it as the order-preserving concatenation of the members'
bag_of_words under the same options. -/
def Description.bag_of_words (svc : NLPServices) (cnw csw stw : Bool)
    (d : Description) : List String :=
  (d.units.map (fun p => blockBagOfWords svc cnw csw stw p.text)).flatten

/-- Method Description.sentence_segment: for each paragraph in units, call
its sentence_segment; side effect only (here: the updated state), no
return value. -/
def Description.sentence_segment (svc : NLPServices) (d : Description) :
    Description :=
  ⟨d.units.map (fun p => p.sentence_segment svc)⟩

/-- Method Description.get_paragraph via BaseTextSet.get_unit: the member
at the 1-based position, none when out of range. -/
def Description.get_paragraph (d : Description) (number : Nat) :
    Option Paragraph :=
  if h : 1 ≤ number ∧ number - 1 < d.units.length then
    some (d.units.get ⟨number - 1, h.2⟩)
  else none

/-- Dynamic attribute fallback Description.getattr for names not otherwise
defined (specification.py lines 165-167): the name paragraphs yields
units, and any other name falls off the end of the method body, so Python
returns None instead of raising AttributeError.  The outer some marks that
attribute lookup succeeds; the inner Option is the Python value (none
standing for the Python None). -/
def Description.getattrFallback (d : Description) (nm : String) :
    Option (List Paragraph) :=
  if nm = "paragraphs" then some d.units else none

/-- Property Description.paragraph_count: len(self.units). -/
def Description.paragraph_count (d : Description) : Nat :=
  d.units.length

/-- Top-level patent document (specification.py lines 8-25): claimset is
required, everything else defaults to None. -/
structure PatentDoc where
  claimset : ClaimSet
  description : Option Description
  figures : Option Unit
  title : Option String
  classifications : Option String
  number : Option String

/-- Property PatentDoc.text: description text when the description is
truthy, else the empty string, joined with the claim-set text by
"\n\n".join([desc_text, self.claimset.text]). -/
def PatentDoc.text (doc : PatentDoc) : String :=
  let desc_text :=
    match doc.description with
    | some d => d.text
    | none => ""
  String.intercalate "\n\n" [desc_text, doc.claimset.text]

/-- Property PatentDoc.unfiltered_counter: the sum
self.description.unfiltered_counter + self.claimset.unfiltered_counter
with no None guard, so an absent description raises AttributeError
(embedded as none). -/
def PatentDoc.unfiltered_counter (svc : NLPServices) (doc : PatentDoc) :
    Option (Multiset String) :=
  match doc.description with
  | none => none
  | some d => some (d.unfiltered_counter svc + doc.claimset.unfiltered_counter)

/-- Property PatentDoc.character_counter: same shape as
unfiltered_counter, again with no None guard on the description. -/
def PatentDoc.character_counter (doc : PatentDoc) : Option (Multiset Char) :=
  match doc.description with
  | none => none
  | some d => some (d.character_counter + doc.claimset.character_counter)

/-- Method PatentDoc.reading_time: len(word_tokenize(self.text)) divided
by reading_rate, a fractional value (Python float division, embedded over
the rationals). -/
def PatentDoc.reading_time (svc : NLPServices) (doc : PatentDoc)
    (reading_rate : ℚ) : ℚ :=
  ((svc.word_tokenize doc.text).length : ℚ) / reading_rate

/-- Method PatentDoc.bag_of_words: description bag plus claimset bag under
the same options, then list(set(...)).  The description is dereferenced
with no None guard, so an absent description raises (none).  list(set(x))
is embedded as x.dedup, a duplicate-free list with the same element set;
Python guarantees no more about its order than that. -/
def PatentDoc.bag_of_words (svc : NLPServices) (cnw csw stw : Bool)
    (doc : PatentDoc) : Option (List String) :=
  match doc.description with
  | none => none
  | some d =>
    some ((d.bag_of_words svc cnw csw stw ++
      doc.claimset.bag_of_words cnw csw stw).dedup)

/-- Method PatentDoc.string2printint: encode each character of self.text
with char_map, substituting char_map[" "] for characters outside it. -/
def PatentDoc.string2printint (doc : PatentDoc) : List Int :=
  doc.text.toList.map encodeChar

/-- Classmethod PatentDoc.printint2string: decode each integer with the
inverse table; a code outside 0..97 raises KeyError (none). -/
def PatentDoc.printint2string (doc_as_ints : List Int) : Option String :=
  (decodeCodes doc_as_ints).map String.mk

/-- Whitespace tokenizer used to instantiate the external word_tokenize
service on concrete inputs: maximal runs of non-whitespace characters, in
order.  Like nltk, it returns no tokens on whitespace-only text. -/
def tokenizeW (s : String) : List String :=
  ((s.toList.splitOnP Char.isWhitespace).filter (fun l => l ≠ [])).map String.mk

/-- Concrete instantiation of the external services, used by the witness
statements below. -/
def svcW : NLPServices :=
  ⟨tokenizeW, fun s => if s.isEmpty then [] else [s],
   fun w => w == "the", fun w => w⟩

/-- Concrete claim-set collaborator for witnesses. -/
def csW : ClaimSet :=
  ⟨"1. A claim.", 1, Multiset.ofList ["claim"], Multiset.ofList ['c'],
   fun _ _ _ => ["claim"]⟩

/-- Concrete claim-set collaborator whose text is empty. -/
def csEmpty : ClaimSet :=
  ⟨"", 0, 0, 0, fun _ _ _ => []⟩

/-- Concrete one-paragraph description for witnesses. -/
def descW : Description :=
  Description.ofStrings ["A cat sat."]

/-- Concrete document with a present description. -/
def docW : PatentDoc :=
  ⟨csW, some descW, none, none, none, none⟩

/-- Concrete document constructed with description=None. -/
def docNoDesc : PatentDoc :=
  ⟨csW, none, none, none, none, none⟩

/-- Concrete document with description=None and an empty claim-set text,
so that its whole text is the bare separator and tokenizes to nothing. -/
def docEmpty : PatentDoc :=
  ⟨csEmpty, none, none, none, none, none⟩

set_option maxRecDepth 10000

/-- Alphabet size: string.printable[:-2] has exactly 98 characters. -/
lemma printable98_len : printable98.length = 98 := by decide

/-- Space membership in the alphabet. -/
lemma space_mem_printable98 : ' ' ∈ printable98 := by decide

set_option maxHeartbeats 1000000 in
/-- Per-character round trip on the alphabet: decoding the code of an
in-alphabet character recovers it. -/
lemma decode_encode_mem : ∀ c ∈ printable98, decodeChar (encodeChar c) = some c := by
  decide

/-- List-level round trip: a character list drawn from the alphabet
decodes from its own encoding. -/
lemma decodeCodes_map_encode (cs : List Char)
    (h : ∀ c ∈ cs, c ∈ printable98) :
    decodeCodes (cs.map encodeChar) = some cs := by
  induction cs with
  | nil => rfl
  | cons c rest ih =>
    have hc := decode_encode_mem c (h c (List.mem_cons_self c rest))
    have hr := ih (fun x hx => h x (List.mem_cons_of_mem c hx))
    simp only [List.map_cons, decodeCodes, hc, hr]

/-- Rebuilding a string from its own character list is the identity. -/
lemma string_mk_toList (s : String) : String.mk s.toList = s := by
  cases s
  rfl

/-- Decoding fails exactly on the codes outside 0..97. -/
lemma decodeChar_eq_none_iff (i : Int) :
    decodeChar i = none ↔ i < 0 ∨ 97 < i := by
  have hlen := printable98_len
  unfold decodeChar
  split_ifs with h
  · simp only [reduceCtorEq, false_iff]
    omega
  · simp only [true_iff]
    omega

/-- Decoding of a valid code is the table lookup at that index. -/
lemma decodeChar_valid (i : Int) (h0 : 0 ≤ i) (h97 : i ≤ 97) :
    decodeChar i = some (printable98.getD i.toNat ' ') := by
  have hl : i.toNat < printable98.length := by
    rw [printable98_len]; omega
  unfold decodeChar
  rw [dif_pos ⟨h0, hl⟩, List.getD_eq_getElem printable98 ' ' hl]
  rfl

/-- Propagation of decode failure through a code list. -/
lemma decodeCodes_eq_none_iff (codes : List Int) :
    decodeCodes codes = none ↔ ∃ i ∈ codes, i < 0 ∨ 97 < i := by
  induction codes with
  | nil => simp [decodeCodes]
  | cons i rest ih =>
    rcases hdi : decodeChar i with _ | c
    · simp only [decodeCodes, hdi]
      have : i < 0 ∨ 97 < i := (decodeChar_eq_none_iff i).mp hdi
      rcases hdr : decodeCodes rest with _ | cs <;>
        simp [List.mem_cons, this]
    · rcases hdr : decodeCodes rest with _ | cs
      · simp only [decodeCodes, hdi, hdr]
        have := ih.mp hdr
        rcases this with ⟨j, hj, hjr⟩
        simp only [true_iff]
        exact ⟨j, List.mem_cons_of_mem i hj, hjr⟩
      · simp only [decodeCodes, hdi, hdr, reduceCtorEq, false_iff]
        intro hex
        rcases hex with ⟨j, hj, hjr⟩
        rcases List.mem_cons.mp hj with hji | hjrest
        · subst hji
          have : decodeChar j = none := (decodeChar_eq_none_iff j).mpr hjr
          rw [this] at hdi
          exact Option.noConfusion hdi
        · have : decodeCodes rest = none := ih.mpr ⟨j, hjrest, hjr⟩
          rw [this] at hdr
          exact Option.noConfusion hdr

/-- Decoding of an all-valid code list is the element-wise table lookup. -/
lemma decodeCodes_valid (codes : List Int)
    (h : ∀ i ∈ codes, 0 ≤ i ∧ i ≤ 97) :
    decodeCodes codes = some (codes.map (fun i => printable98.getD i.toNat ' ')) := by
  induction codes with
  | nil => rfl
  | cons i rest ih =>
    have hi := h i (List.mem_cons_self i rest)
    have hr := ih (fun x hx => h x (List.mem_cons_of_mem i hx))
    simp only [decodeCodes, decodeChar_valid i hi.1 hi.2, hr, List.map_cons]

/-- C1: for every PatentDoc whose text consists only of characters of the
98-character printable alphabet, decoding the printable encoding recovers
the text exactly: printint2string(string2printint()) yields the text. -/
theorem roundtrip_printable_C1 (doc : PatentDoc)
    (h : ∀ c ∈ doc.text.toList, c ∈ printable98) :
    PatentDoc.printint2string doc.string2printint = some doc.text := by
  unfold PatentDoc.printint2string PatentDoc.string2printint
  rw [decodeCodes_map_encode doc.text.toList h]
  simp [string_mk_toList]

/-- Witness for C1 at a concrete document whose text is drawn from the
alphabet. -/
theorem roundtrip_printable_C1_witness :
    (∀ c ∈ docW.text.toList, c ∈ printable98) ∧
    PatentDoc.printint2string docW.string2printint = some docW.text :=
  ⟨by decide, roundtrip_printable_C1 docW (by decide)⟩

/-- C4: printint2string fails exactly when some code lies outside 0..97,
never silently substituting, and on an all-valid code list it returns the
string obtained by mapping each code through the alphabet table. -/
theorem printint2string_C4 (codes : List Int) :
    (PatentDoc.printint2string codes = none ↔ ∃ i ∈ codes, i < 0 ∨ 97 < i) ∧
    ((∀ i ∈ codes, 0 ≤ i ∧ i ≤ 97) →
      PatentDoc.printint2string codes =
        some (String.mk (codes.map (fun i => printable98.getD i.toNat ' ')))) := by
  constructor
  · unfold PatentDoc.printint2string
    rw [Option.map_eq_none']
    exact decodeCodes_eq_none_iff codes
  · intro h
    unfold PatentDoc.printint2string
    rw [decodeCodes_valid codes h]
    rfl

/-- Witness for C4: a valid code list decodes to the mapped string and a
list holding the invalid code 98 fails. -/
theorem printint2string_C4_witness :
    PatentDoc.printint2string [(10 : Int), 94] =
      some (String.mk ([(10 : Int), 94].map (fun i => printable98.getD i.toNat ' '))) ∧
    PatentDoc.printint2string [(98 : Int)] = none :=
  ⟨(printint2string_C4 [10, 94]).2 (by decide),
   (printint2string_C4 [98]).1.mpr ⟨98, by decide⟩⟩

/-- C5: string2printint is total; an in-alphabet character is encoded to
its alphabet index and an out-of-alphabet character is silently encoded to
the code of the space character. -/
theorem string2printint_C5 (doc : PatentDoc) :
    doc.string2printint = doc.text.toList.map encodeChar ∧
    (∀ c : Char, c ∈ printable98 → encodeChar c = (printable98.indexOf c : Int)) ∧
    (∀ c : Char, c ∉ printable98 → encodeChar c = encodeChar ' ') := by
  refine ⟨rfl, fun c hc => ?_, fun c hc => ?_⟩
  · simp [encodeChar, hc]
  · simp [encodeChar, hc, space_mem_printable98]

/-- Witness for C5 at a concrete document, an out-of-alphabet character
and an in-alphabet character. -/
theorem string2printint_C5_witness :
    docW.string2printint = docW.text.toList.map encodeChar ∧
    encodeChar 'é' = encodeChar ' ' ∧
    encodeChar '0' = (printable98.indexOf '0' : Int) :=
  ⟨(string2printint_C5 docW).1,
   (string2printint_C5 docW).2.2 'é' (by decide),
   (string2printint_C5 docW).2.1 '0' (by decide)⟩

/-- C6: the document text is the description text (empty when the
description is absent) and the claim-set text joined by a blank-line
separator. -/
theorem text_C6 (doc : PatentDoc) :
    doc.text =
      (match doc.description with
        | some d => d.text
        | none => "") ++ "\n\n" ++ doc.claimset.text := by
  rcases doc with ⟨cs, d, fg, ti, cl, nu⟩
  cases d <;> rfl

/-- C2 counterexample: on a concrete document constructed with
description=None, both counter properties raise AttributeError (none)
instead of succeeding with the claim-set's counters alone. -/
theorem counters_C2_counterexample :
    PatentDoc.unfiltered_counter svcW docNoDesc = none ∧
    PatentDoc.character_counter docNoDesc = none ∧
    PatentDoc.unfiltered_counter svcW docNoDesc ≠ some csW.unfiltered_counter ∧
    PatentDoc.character_counter docNoDesc ≠ some csW.character_counter := by
  refine ⟨rfl, rfl, ?_, ?_⟩ <;>
    simp [PatentDoc.unfiltered_counter, PatentDoc.character_counter, docNoDesc]

/-- C2 amended: when the description is present, unfiltered_counter and
character_counter equal the element-wise sum of the description's and the
claim-set's same-named counters; when the description is absent the
property access fails (AttributeError) instead of succeeding with the
claim-set's counters alone. -/
theorem counters_C2_amended (svc : NLPServices) (cs : ClaimSet)
    (d : Description) (fg : Option Unit) (ti cl nu : Option String) :
    (∃ m, PatentDoc.unfiltered_counter svc ⟨cs, some d, fg, ti, cl, nu⟩ = some m ∧
      ∀ tok, m.count tok =
        (d.unfiltered_counter svc).count tok + cs.unfiltered_counter.count tok) ∧
    (∃ m, PatentDoc.character_counter ⟨cs, some d, fg, ti, cl, nu⟩ = some m ∧
      ∀ ch, m.count ch =
        d.character_counter.count ch + cs.character_counter.count ch) ∧
    PatentDoc.unfiltered_counter svc ⟨cs, none, fg, ti, cl, nu⟩ = none ∧
    PatentDoc.character_counter ⟨cs, none, fg, ti, cl, nu⟩ = none :=
  ⟨⟨_, rfl, fun tok => Multiset.count_add tok _ _⟩,
   ⟨_, rfl, fun ch => Multiset.count_add ch _ _⟩,
   rfl, rfl⟩

/-- Paragraph-level effect of the spec-modelled sentence_segment: the
cache is populated, a later sentences access invokes the service zero
times and changes nothing, and the raw text is untouched. -/
lemma sentence_segment_cache (svc : NLPServices) (p : Paragraph) :
    ((p.sentence_segment svc).sentencesCache.isSome = true) ∧
    (((p.sentence_segment svc).sentences svc).2.2 = 0) ∧
    (((p.sentence_segment svc).sentences svc).2.1 = p.sentence_segment svc) ∧
    (((p.sentence_segment svc).sentences svc).1 = ((p.sentence_segment svc).sentencesCache).getD []) ∧
    ((p.sentence_segment svc).text = p.text) := by
  rcases p with ⟨t, c⟩
  cases c <;> simp [Paragraph.sentence_segment, Paragraph.sentences]

/-- C3: sentence_segment on a Description succeeds on every input, leaves
every member paragraph's lazy sentence cache populated — so a later
sentences access invokes the splitting service zero times and leaves the
state unchanged — and communicates only through that state (the member
texts are untouched). -/
theorem sentence_segment_C3 (svc : NLPServices) (d : Description) :
    (∀ p ∈ (d.sentence_segment svc).units, p.sentencesCache.isSome = true) ∧
    (∀ p ∈ (d.sentence_segment svc).units,
      (p.sentences svc).2.2 = 0 ∧ (p.sentences svc).2.1 = p) ∧
    (d.sentence_segment svc).units.map Paragraph.text = d.units.map Paragraph.text := by
  refine ⟨?_, ?_, ?_⟩
  · intro p hp
    rcases List.mem_map.mp hp with ⟨q, _, hq⟩
    rw [← hq]
    exact (sentence_segment_cache svc q).1
  · intro p hp
    rcases List.mem_map.mp hp with ⟨q, _, hq⟩
    rw [← hq]
    exact ⟨(sentence_segment_cache svc q).2.1, (sentence_segment_cache svc q).2.2.1⟩
  · unfold Description.sentence_segment
    rw [List.map_map]
    exact List.map_congr_left fun q _ => (sentence_segment_cache svc q).2.2.2.2

/-- Witness for C3 at a concrete one-paragraph description and concrete
services: the segmented paragraph's cache is populated. -/
theorem sentence_segment_C3_witness :
    (Paragraph.mk "A cat sat." (some [Sentence.mk "A cat sat."])).sentencesCache.isSome = true :=
  (sentence_segment_C3 svcW descW).1
    (Paragraph.mk "A cat sat." (some [Sentence.mk "A cat sat."])) (by decide)

/-- C7: the sentence-splitting service is invoked at most once per
Paragraph: a second sentences access returns the first access's list,
leaves the state fixed and makes zero service calls, the two accesses
together make at most one call, and a first access on a fresh paragraph
computes the ordered Sentence list from its text. -/
theorem sentences_idempotent_C7 (svc : NLPServices) (p : Paragraph) (t : String) :
    ((p.sentences svc).2.1.sentences svc).1 = (p.sentences svc).1 ∧
    ((p.sentences svc).2.1.sentences svc).2.1 = (p.sentences svc).2.1 ∧
    ((p.sentences svc).2.1.sentences svc).2.2 = 0 ∧
    (p.sentences svc).2.2 + ((p.sentences svc).2.1.sentences svc).2.2 ≤ 1 ∧
    ((Paragraph.ofText t).sentences svc).1 = (svc.sent_tokenize t).map Sentence.mk := by
  rcases p with ⟨tx, c⟩
  cases c <;> simp [Paragraph.sentences, Paragraph.ofText]

/-- C8: on a document whose description is present, bag_of_words succeeds
and returns a duplicate-free list whose element set is the union of the
description's and the claim-set's bag-of-words under the same options. -/
theorem bag_of_words_C8 (svc : NLPServices) (cs : ClaimSet) (d : Description)
    (fg : Option Unit) (ti cl nu : Option String) (cnw csw stw : Bool) :
    ∃ r, PatentDoc.bag_of_words svc cnw csw stw ⟨cs, some d, fg, ti, cl, nu⟩ = some r ∧
      r.Nodup ∧
      (∀ w, w ∈ r ↔
        w ∈ d.bag_of_words svc cnw csw stw ∨ w ∈ cs.bag_of_words cnw csw stw) :=
  ⟨_, rfl, List.nodup_dedup _,
   fun w => by rw [List.mem_dedup, List.mem_append]⟩

/-- C9 counterexample: a concrete document whose whole text is the bare
"\n\n" separator tokenizes to no tokens, so reading_time is 0 at both
rates and the strict inequality claimed for every PatentDoc fails. -/
theorem reading_time_C9_counterexample :
    ¬ (PatentDoc.reading_time svcW docEmpty 200 <
       PatentDoc.reading_time svcW docEmpty 100) := by
  have h : svcW.word_tokenize (PatentDoc.text docEmpty) = [] := by decide
  simp [PatentDoc.reading_time, h]

/-- C9 amended: reading_time(r) equals the token count of the document
text divided by r, and for a document whose text has at least one token,
reading_time at rate 200 is strictly below reading_time at rate 100; with
zero tokens the two estimates are both zero, so the strict inequality
holds exactly for token-bearing documents. -/
theorem reading_time_C9_amended (svc : NLPServices) (doc : PatentDoc)
    (h : 0 < (svc.word_tokenize doc.text).length) :
    (∀ r : ℚ, doc.reading_time svc r =
      ((svc.word_tokenize doc.text).length : ℚ) / r) ∧
    doc.reading_time svc 200 < doc.reading_time svc 100 := by
  refine ⟨fun r => rfl, ?_⟩
  unfold PatentDoc.reading_time
  refine div_lt_div_of_pos_left ?_ (by norm_num) (by norm_num)
  exact_mod_cast h

/-- Witness for C9 at a concrete token-bearing document. -/
theorem reading_time_C9_witness :
    docW.reading_time svcW 200 < docW.reading_time svcW 100 :=
  (reading_time_C9_amended svcW docW (by decide)).2

/-- C10: attribute fallback on Description is total (no AttributeError):
the name paragraphs yields the units list and any other undefined name
yields the Python None. -/
theorem getattr_C10 (d : Description) :
    d.getattrFallback "paragraphs" = some d.units ∧
    ∀ nm : String, nm ≠ "paragraphs" → d.getattrFallback nm = none := by
  refine ⟨rfl, fun nm h => ?_⟩
  simp [Description.getattrFallback, h]

/-- Witness for C10 at a concrete description and a concrete undefined
attribute name. -/
theorem getattr_C10_witness :
    descW.getattrFallback "paragraphs" = some descW.units ∧
    descW.getattrFallback "claims" = none :=
  ⟨(getattr_C10 descW).1, (getattr_C10 descW).2 "claims" (by decide)⟩

end Patentdata
